import Mathlib

/-!
Verification development for the frontEnd-shop repository.

The definitions below are a shallow embedding of the TypeScript sources:

* `src/components/products/ProductShowcase.tsx` — the client-side catalog
  filter/sort/pagination engine `applyClientFilters`;
* `src/components/products/ProductAdminPanel.tsx` (the `useProductAdmin` hook) —
  the product form state, `buildPayload`, `productToFormState`, `toList` and the
  `handleSubmit` workflow;
* `src/services/productService.ts` — the remote catalog gateway
  (`list`/`getById`/`create`/`update`/`delete` and `ensureAuthHeader`);
* `src/lib/api.ts` — the `ApiClient` header state touched by the gateway.

Modelling conventions:

* JavaScript numbers are modelled as exact rationals `ℚ`; the special values
  `NaN`/`Infinity`/`-Infinity` that can come out of `Number(string)` are carried
  by the inductive `JsNum`.  No claim in scope depends on binary floating-point
  rounding.
* JavaScript strings are Lean `String`s; the string operations used by the code
  (`trim`, `toLowerCase`, `includes`, `split`, `join`, `startsWith`) are defined
  below over the underlying character lists so that they compute by `decide`.
* `Array.prototype.sort` is stable per the ECMAScript specification; every
  comparator in `applyClientFilters` is induced by a total preorder on a key,
  so the sort's result is the unique stable sort and is modelled by the stable
  `List.mergeSort` with `le a b := (comparator a b ≤ 0)`.
-/

namespace Shop

open scoped List

/-! ## Character and string utilities (JS `trim`, `toLowerCase`, `includes`) -/

/-- Whitespace characters removed by JavaScript `String.prototype.trim`
(restricted to the ASCII whitespace that can realistically appear in the
form fields; the full Unicode whitespace set is not modelled). -/
def jsWsChar (c : Char) : Bool :=
  c = ' ' || c = '\t' || c = '\n' || c = '\r'

/-- Trim of a character list: drop leading and trailing whitespace. -/
def charTrim (cs : List Char) : List Char :=
  ((cs.dropWhile jsWsChar).reverse.dropWhile jsWsChar).reverse

/-- Model of JavaScript `String.prototype.trim`. -/
def jsTrim (s : String) : String :=
  String.mk (charTrim s.data)

/-- ASCII lower-casing of one character (model of `toLowerCase` per char). -/
def lowerChar (c : Char) : Char :=
  if 65 ≤ c.toNat && c.toNat ≤ 90 then Char.ofNat (c.toNat + 32) else c

/-- Model of JavaScript `String.prototype.toLowerCase` (ASCII range). -/
def strLower (s : String) : String :=
  String.mk (s.data.map lowerChar)

/-- Check that `pat` occurs as a prefix of `hay` (on character lists). -/
def charsHavePre (pat hay : List Char) : Bool :=
  match pat, hay with
  | [], _ => true
  | _ :: _, [] => false
  | p :: ps, h :: hs => p = h && charsHavePre ps hs

/-- Check that `pat` occurs as a contiguous sublist of `hay`. -/
def charsInclude (hay pat : List Char) : Bool :=
  charsHavePre pat hay ||
    match hay with
    | [] => false
    | _ :: t => charsInclude t pat

/-- Model of JavaScript `String.prototype.includes`. -/
def jsIncludes (hay pat : String) : Bool :=
  charsInclude hay.data pat.data

/-- Model of JavaScript `String.prototype.startsWith`. -/
def jsStartsWith (s pre : String) : Bool :=
  charsHavePre pre.data s.data

/-- Split a character list at every comma, keeping empty pieces, as JavaScript
`String.prototype.split(",")` does. -/
def splitComma : List Char → List (List Char)
  | [] => [[]]
  | c :: cs =>
    if c = ',' then [] :: splitComma cs
    else
      match splitComma cs with
      | [] => [[c]]
      | p :: ps => (c :: p) :: ps

/-- Model of JavaScript `Array.prototype.join(", ")`. -/
def joinCommaSpace : List String → String
  | [] => ""
  | [x] => x
  | x :: xs => x ++ ", " ++ joinCommaSpace xs

/-- Model of JavaScript `Array.prototype.join(" ")`. -/
def joinSpace : List String → String
  | [] => ""
  | [x] => x
  | x :: xs => x ++ " " ++ joinSpace xs

/-- Truthiness of a JavaScript string (`""` is falsy). -/
def strTruthy (s : String) : Bool := s ≠ ""

/-- Truthiness of an optional JavaScript string (`undefined`/`null`/`""` are
falsy). -/
def optStrTruthy : Option String → Bool
  | none => false
  | some s => strTruthy s

/-! ## JavaScript numbers

Results of `Number(string)` are exact rationals extended with the three
special values JavaScript can produce here. -/

/-- Result of a JavaScript numeric coercion. -/
inductive JsNum where
  | nan : JsNum
  | inf : JsNum
  | negInf : JsNum
  | val (q : ℚ) : JsNum
deriving DecidableEq, Repr

/-- Evaluation of the JavaScript comparison `x <= 0` (`NaN <= 0` is false). -/
def JsNum.leZero : JsNum → Bool
  | .nan => false
  | .inf => false
  | .negInf => true
  | .val q => decide (q ≤ 0)

/-- Evaluation of the JavaScript comparison `x < 0` (`NaN < 0` is false). -/
def JsNum.ltZero : JsNum → Bool
  | .nan => false
  | .inf => false
  | .negInf => true
  | .val q => decide (q < 0)

/-- Evaluation of `Number.isNaN`. -/
def JsNum.isNan : JsNum → Bool
  | .nan => true
  | _ => false

/-- Decimal digit test on a character (via code points, `'0'..'9'`). -/
def isDigitCh (c : Char) : Bool :=
  48 ≤ c.toNat && c.toNat ≤ 57

/-- Consume leading decimal digits, returning their value, their count and the
rest of the input. -/
def takeDigits : List Char → ℕ × ℕ × List Char
  | [] => (0, 0, [])
  | c :: cs =>
    if isDigitCh c then
      let r := takeDigits cs
      -- value of `c :: digits` = digit * 10^count + value of digits
      (((c.toNat - 48) * 10 ^ r.2.1) + r.1, r.2.1 + 1, r.2.2)
    else (0, 0, c :: cs)

/-- Value of one hexadecimal digit, if the character is one. -/
def hexDigitVal (c : Char) : Option ℕ :=
  if 48 ≤ c.toNat && c.toNat ≤ 57 then some (c.toNat - 48)
  else if 97 ≤ c.toNat && c.toNat ≤ 102 then some (c.toNat - 87)
  else if 65 ≤ c.toNat && c.toNat ≤ 70 then some (c.toNat - 55)
  else none

/-- Accumulate digits of radix `r` (used for the `0x`/`0o`/`0b` literal forms
of `Number(string)`); fails on a non-digit or on empty input. -/
def takeRadix (r : ℕ) (limit : ℕ) : List Char → Option ℕ
  | [] => none
  | [c] => do
    let v ← hexDigitVal c
    if v < limit then pure v else none
  | c :: cs => do
    let v ← hexDigitVal c
    if v < limit then
      let rest ← takeRadix r limit cs
      pure (v * r ^ cs.length + rest)
    else none

/-- Build the rational `sign * mantissa * 10 ^ (exp - scale)` out of the parts
of a decimal literal (`scale` counts fractional digits). -/
def ratOfParts (neg : Bool) (mantissa : ℕ) (scale : ℕ) (exp : ℤ) : ℚ :=
  let t : ℤ := exp - (scale : ℤ)
  let signedNum : ℤ := if neg then -(mantissa : ℤ) else (mantissa : ℤ)
  if 0 ≤ t then mkRat (signedNum * (10 : ℤ) ^ t.toNat) 1
  else mkRat signedNum (10 ^ (-t).toNat)

/-- Parse the exponent tail (`e`/`E` part) of a decimal literal; the whole
remaining input must be consumed. -/
def decExpTail (neg : Bool) (mantissa scale : ℕ) : List Char → Option ℚ
  | [] => some (ratOfParts neg mantissa scale 0)
  | e :: r =>
    if e = 'e' || e = 'E' then
      let signed : Bool × List Char :=
        match r with
        | '-' :: r2 => (true, r2)
        | '+' :: r2 => (false, r2)
        | _ => (false, r)
      let d := takeDigits signed.2
      if d.2.1 = 0 || d.2.2 ≠ [] then none
      else
        let ev : ℤ := if signed.1 then -(d.1 : ℤ) else (d.1 : ℤ)
        some (ratOfParts neg mantissa scale ev)
    else none

/-- Parse a signed decimal literal body (after whitespace trimming and sign
extraction): `digits`, `digits.digits`, `digits.`, or `.digits`, followed by an
optional exponent. -/
def decBody (neg : Bool) (cs : List Char) : Option ℚ :=
  let ip := takeDigits cs
  match ip.2.2 with
  | '.' :: r2 =>
    let fp := takeDigits r2
    if ip.2.1 = 0 && fp.2.1 = 0 then none
    else decExpTail neg (ip.1 * 10 ^ fp.2.1 + fp.1) fp.2.1 fp.2.2
  | _ => if ip.2.1 = 0 then none else decExpTail neg ip.1 0 ip.2.2

/-- Model of JavaScript `Number(string)`: trims whitespace, maps the empty
string to `0`, accepts `Infinity` forms, the unsigned `0x`/`0o`/`0b` literal
forms and signed decimal literals with an optional exponent; everything else
is `NaN`. -/
def jsNumber (s : String) : JsNum :=
  let cs := charTrim s.data
  match cs with
  | [] => .val 0
  | '0' :: x :: rest =>
    if x = 'x' || x = 'X' then
      match takeRadix 16 16 rest with
      | some n => .val (mkRat n 1)
      | none => .nan
    else if x = 'o' || x = 'O' then
      match takeRadix 8 8 rest with
      | some n => .val (mkRat n 1)
      | none => .nan
    else if x = 'b' || x = 'B' then
      match takeRadix 2 2 rest with
      | some n => .val (mkRat n 1)
      | none => .nan
    else
      match decBody false cs with
      | some q => .val q
      | none => .nan
  | c :: rest =>
    let signed : Bool × List Char :=
      if c = '-' then (true, rest)
      else if c = '+' then (false, rest)
      else (false, cs)
    if signed.2 = ['I', 'n', 'f', 'i', 'n', 'i', 't', 'y'] then
      if signed.1 then .negInf else .inf
    else
      match decBody signed.1 signed.2 with
      | some q => .val q
      | none => .nan

/-! ## Rendering JavaScript numbers as strings

`String(number)` for the rationals a JavaScript number can hold (those with a
terminating decimal expansion).  The exponential notation JavaScript uses for
magnitudes ≥ 1e21 or < 1e-6 is not modelled; no claim in scope evaluates
`String` on such values. -/

/-- Number of times `p` divides `n` (with explicit fuel so the definition is
structural and computes in the kernel). -/
def multiplicityAux (p : ℕ) : ℕ → ℕ → ℕ
  | _, 0 => 0
  | n, fuel + 1 =>
    if 2 ≤ p && n % p = 0 && n ≠ 0 then multiplicityAux p (n / p) fuel + 1
    else 0

/-- Decimal digits of a natural number, most significant first. -/
def natDigitsAux : ℕ → ℕ → List Char
  | _, 0 => []
  | n, fuel + 1 =>
    if n < 10 then [Char.ofNat (48 + n)]
    else natDigitsAux (n / 10) fuel ++ [Char.ofNat (48 + n % 10)]

/-- Decimal rendering of a natural number. -/
def natToStr (n : ℕ) : String :=
  String.mk (natDigitsAux n (n + 1))

/-- Left-pad the decimal rendering of `n` with zeros to `k` characters. -/
def padZeros (k : ℕ) (n : ℕ) : String :=
  let ds := natDigitsAux n (n + 1)
  String.mk (List.replicate (k - ds.length) '0' ++ ds)

/-- Model of JavaScript `String(number)` on exact rationals.  For a rational
with a terminating decimal expansion this produces the plain decimal form
(integers carry no decimal point, fractional parts carry no trailing zeros,
matching JavaScript).  Rationals without a terminating expansion cannot arise
from a JavaScript number; they are rendered as `num/den` to keep the function
total. -/
def numToString (q : ℚ) : String :=
  let sign := if q.num < 0 then "-" else ""
  let n := q.num.natAbs
  let d := q.den
  let a := multiplicityAux 2 d d
  let b := multiplicityAux 5 d d
  if d = 2 ^ a * 5 ^ b then
    let k := max a b
    let m := n * 10 ^ k / d
    if k = 0 then sign ++ natToStr m
    else sign ++ natToStr (m / 10 ^ k) ++ "." ++ padZeros k (m % 10 ^ k)
  else sign ++ natToStr n ++ "/" ++ natToStr d

/-! ## Exact rational arithmetic helpers

`Rat.add`/`Rat.mul` are irreducible in this toolchain, so the places where the
embedded code multiplies or adds JavaScript numbers go through `mkRat`-based
equivalents that the kernel can evaluate; `jsMul_eq`/`jsAdd_eq` below identify
them with the ordinary operations for use in proofs. -/

/-- Kernel-computable multiplication on `ℚ`. -/
def jsMul (a b : ℚ) : ℚ := mkRat (a.num * b.num) (a.den * b.den)

/-- Kernel-computable addition on `ℚ`. -/
def jsAdd (a b : ℚ) : ℚ :=
  mkRat (a.num * (b.den : ℤ) + b.num * (a.den : ℤ)) (a.den * b.den)

theorem jsMul_eq (a b : ℚ) : jsMul a b = a * b := by
  rw [jsMul, Rat.mkRat_eq_div, Rat.mul_def, Rat.normalize_eq_mkRat, Rat.mkRat_eq_div]

theorem jsAdd_eq (a b : ℚ) : jsAdd a b = a + b := by
  rw [jsAdd, Rat.mkRat_eq_div, Rat.add_def, Rat.normalize_eq_mkRat, Rat.mkRat_eq_div]

/-! ## Data model

Shapes from `src/services/productService.ts` (the canonical `Product`
interface, lines 11–29) and `src/components/products/ProductShowcase.tsx`
(the `ClientFilterOptions` interface, lines 321–331). -/

/-- Inventory status union
`"IN_STOCK" | "LOW_STOCK" | "OUT_OF_STOCK" | "PREORDER"`. -/
inductive InventoryStatus where
  | IN_STOCK
  | LOW_STOCK
  | OUT_OF_STOCK
  | PREORDER
deriving DecidableEq, Repr

/-- Price object `{amount, currency?, originalAmount?}`. -/
structure ProductPrice where
  amount : ℚ
  currency : Option String := none
  originalAmount : Option ℚ := none
deriving DecidableEq, Repr

/-- Product identifier, `string | number`. -/
inductive ProductId where
  | str (s : String)
  | num (q : ℚ)
deriving DecidableEq, Repr

/-- Canonical product shape (interface `Product`).  The interface declares no
`createdAt` field, so the `newest` sort branch of `applyClientFilters` always
reads `undefined` there. -/
structure Product where
  id : ProductId
  name : String
  slug : Option String := none
  description : Option String := none
  summary : Option String := none
  price : Option ProductPrice := none
  imageUrl : Option String := none
  thumbnailUrl : Option String := none
  badges : Option (List String) := none
  tags : Option (List String) := none
  rating : Option ℚ := none
  reviewCount : Option ℚ := none
  inventoryStatus : Option InventoryStatus := none
  featured : Option Bool := none
  serialNumber : Option String := none
  stock : Option ℚ := none
  currency : Option String := none
deriving DecidableEq, Repr

/-- Filter/sort/pagination specification (`ClientFilterOptions`); the
`string | null | undefined` variants of `search`/`tags` are collapsed into
`Option`, which is faithful because the code only tests them for truthiness. -/
structure ClientFilterOptions where
  search : Option String := none
  category : Option String := none
  tags : Option (List String) := none
  minPrice : Option ℚ := none
  maxPrice : Option ℚ := none
  sort : Option String := none
  featured : Option Bool := none
  page : Option ℚ := none
  limit : Option ℚ := none
deriving DecidableEq, Repr

/-! ## Catalog filter engine (`applyClientFilters`, ProductShowcase.tsx 333–418) -/

/-- Search haystack of one product: `[name, summary, description,
serialNumber, ...tags, ...badges].filter(Boolean).join(" ").toLowerCase()`. -/
def searchHaystack (p : Product) : String :=
  strLower (joinSpace
    ((([some p.name, p.summary, p.description, p.serialNumber] :
        List (Option String)) ++
      (p.tags.getD []).map some ++ (p.badges.getD []).map some).filterMap
      (fun o =>
        match o with
        | some s => if strTruthy s then some s else none
        | none => none)))

/-- Search stage: case-insensitive substring match against the haystack when
the trimmed query is non-empty (`options.search?.trim().toLowerCase()` is
`undefined` when `search` is absent, and `if (searchQuery)` treats `undefined`
and `""` alike). -/
def searchStage (o : ClientFilterOptions) (l : List Product) : List Product :=
  let searchQuery := (o.search.map (fun s => strLower (jsTrim s))).getD ""
  if strTruthy searchQuery then
    l.filter (fun p => jsIncludes (searchHaystack p) searchQuery)
  else l

/-- Tag stage: keep products with at least one tag case-insensitively equal to
a spec tag (`options.tags && options.tags.length > 0` guard). -/
def tagsStage (o : ClientFilterOptions) (l : List Product) : List Product :=
  match o.tags with
  | some ts =>
    if 0 < ts.length then
      let tagSet := ts.map strLower
      l.filter (fun p =>
        ((p.tags.getD []).map strLower).any (fun t => tagSet.contains t))
    else l
  | none => l

/-- Category stage: the category is matched as a pseudo-tag
(`if (options.category)` truthiness guard). -/
def categoryStage (o : ClientFilterOptions) (l : List Product) : List Product :=
  match o.category with
  | some c =>
    if strTruthy c then
      let categoryQuery := strLower c
      l.filter (fun p => ((p.tags.getD []).map strLower).contains categoryQuery)
    else l
  | none => l

/-- Lower price bound stage: products without a price are excluded
(`typeof price === "number" ? price >= options.minPrice : false`). -/
def minPriceStage (o : ClientFilterOptions) (l : List Product) : List Product :=
  match o.minPrice with
  | some m =>
    l.filter (fun p =>
      match p.price with
      | some pr => decide (m ≤ pr.amount)
      | none => false)
  | none => l

/-- Upper price bound stage, symmetric to `minPriceStage`. -/
def maxPriceStage (o : ClientFilterOptions) (l : List Product) : List Product :=
  match o.maxPrice with
  | some m =>
    l.filter (fun p =>
      match p.price with
      | some pr => decide (pr.amount ≤ m)
      | none => false)
  | none => l

/-- Featured stage: `Boolean(product.featured) === options.featured`. -/
def featuredStage (o : ClientFilterOptions) (l : List Product) : List Product :=
  match o.featured with
  | some f => l.filter (fun p => p.featured.getD false == f)
  | none => l

/-- Ascending price sort key, `a.price?.amount ?? Infinity`. -/
def ascPriceKey (p : Product) : WithTop ℚ :=
  match p.price with
  | some pr => (pr.amount : WithTop ℚ)
  | none => ⊤

/-- Descending price sort key substitute, `b.price?.amount ?? -Infinity`. -/
def descPriceKey (p : Product) : WithBot ℚ :=
  match p.price with
  | some pr => (pr.amount : WithBot ℚ)
  | none => ⊥

/-- Rating sort key, `b.rating ?? 0`. -/
def ratingKey (p : Product) : ℚ := p.rating.getD 0

/-- Creation date key, `a.createdAt ? Date.parse(a.createdAt) : 0`.  The
`Product` interface declares no `createdAt` field, so the read is always
`undefined` (falsy) and the key is constantly `0`. -/
def dateKey (_ : Product) : ℚ := 0

/-- Featured sort key, `Number(Boolean(b.featured))`. -/
def featKey (p : Product) : ℕ := if p.featured.getD false then 1 else 0

/-- Sort predicate of the `price_asc` branch: `le a b` holds exactly when the
comparator `(a.price?.amount ?? Infinity) - (b.price?.amount ?? Infinity)`
returns a value ≤ 0 (with the ECMAScript rule that a `NaN` comparator value,
arising only as `∞ - ∞` when both keys are missing, counts as `0`). -/
def leAsc (a b : Product) : Bool :=
  decide (ascPriceKey a ≤ ascPriceKey b)

/-- Sort predicate of the `price_desc` branch, comparator
`(b.price?.amount ?? -Infinity) - (a.price?.amount ?? -Infinity)`. -/
def leDesc (a b : Product) : Bool :=
  decide (descPriceKey b ≤ descPriceKey a)

/-- Sort predicate of the `rating` branch, comparator
`(b.rating ?? 0) - (a.rating ?? 0)`. -/
def leRating (a b : Product) : Bool :=
  decide (ratingKey b ≤ ratingKey a)

/-- Sort predicate of the `newest` branch, comparator `bDate - aDate`. -/
def leNewest (a b : Product) : Bool :=
  decide (dateKey b ≤ dateKey a)

/-- Sort predicate of the default branch, comparator
`Number(Boolean(b.featured)) - Number(Boolean(a.featured))`. -/
def leDefault (a b : Product) : Bool :=
  decide (featKey b ≤ featKey a)

/-- Dispatch of the sort `switch` (ProductShowcase.tsx 388–408): each branch
is a total preorder induced by the branch's key, so the stable sort result is
canonical. -/
def sortLE (sort : Option String) : Product → Product → Bool :=
  match sort with
  | some "price_asc" => leAsc
  | some "price_desc" => leDesc
  | some "rating" => leRating
  | some "newest" => leNewest
  | _ => leDefault

/-- Sort stage: JavaScript `Array.prototype.sort` is stable, modelled by the
stable `List.mergeSort`. -/
def sortStage (o : ClientFilterOptions) (l : List Product) : List Product :=
  l.mergeSort (sortLE o.sort)

/-- Truncation toward zero, as in the `ToIntegerOrInfinity` conversion used by
`Array.prototype.slice`. -/
def jsTrunc (q : ℚ) : ℤ := if 0 ≤ q then Rat.floor q else Rat.ceil q

/-- Model of `Array.prototype.slice(start, end)` with numeric arguments:
truncate each index toward zero, clamp (negative values count from the end),
and return the elements in between. -/
def jsSlice {α : Type} (l : List α) (a b : ℚ) : List α :=
  let len : ℤ := l.length
  let rs := jsTrunc a
  let s := if rs < 0 then max (len + rs) 0 else min rs len
  let re := jsTrunc b
  let e := if re < 0 then max (len + re) 0 else min re len
  (l.drop s.toNat).take (e - s).toNat

/-- Pagination stage: when `limit` is a positive number, slice
`[(page-1)*limit, (page-1)*limit + limit)` with
`page = Math.max(options.page ? Math.floor(options.page) : 1, 1)`. -/
def paginateStage (o : ClientFilterOptions) (l : List Product) : List Product :=
  match o.limit with
  | some limit =>
    if 0 < limit then
      let page : ℤ :=
        max
          (match o.page with
           | some p => if p = 0 then 1 else Rat.floor p
           | none => 1)
          1
      let start := jsMul (mkRat (page - 1) 1) limit
      jsSlice l start (jsAdd start limit)
    else l
  | none => l

/-- Shallow embedding of `applyClientFilters` (ProductShowcase.tsx 333–418):
six narrowing filter stages applied in source order, one stable sort, then
pagination. -/
def applyClientFilters (products : List Product) (options : ClientFilterOptions) :
    List Product :=
  paginateStage options
    (sortStage options
      (featuredStage options
        (maxPriceStage options
          (minPriceStage options
            (categoryStage options
              (tagsStage options
                (searchStage options products)))))))

/-! ## Product form state (`useProductAdmin`, ProductAdminPanel.tsx 518–568) -/

/-- Draft form fields; numeric domain fields are held as strings while edited. -/
structure ProductFormState where
  name : String
  slug : String
  summary : String
  description : String
  price : String
  originalPrice : String
  currency : String
  imageUrl : String
  thumbnailUrl : String
  badges : String
  tags : String
  rating : String
  reviewCount : String
  inventoryStatus : InventoryStatus
  featured : Bool
  serialNumber : String
  stock : String
deriving DecidableEq, Repr

/-- Default form state `DEFAULT_PRODUCT_FORM`. -/
def DEFAULT_PRODUCT_FORM : ProductFormState where
  name := ""
  slug := ""
  summary := ""
  description := ""
  price := ""
  originalPrice := ""
  currency := "USD"
  imageUrl := ""
  thumbnailUrl := ""
  badges := ""
  tags := ""
  rating := ""
  reviewCount := ""
  inventoryStatus := .IN_STOCK
  featured := false
  serialNumber := ""
  stock := ""

/-- Payload shape `CreateProductPayload` (productService.ts 77–95).  Optional
TypeScript fields are `Option`s; `none` stands for a field set to `undefined`
or left out. -/
structure CreateProductPayload where
  name : String
  slug : Option String := none
  summary : Option String := none
  description : Option String := none
  price : JsNum
  originalPrice : Option JsNum := none
  currency : Option String := none
  imageUrl : Option String := none
  thumbnailUrl : Option String := none
  badges : Option (List String) := none
  tags : Option (List String) := none
  rating : Option JsNum := none
  reviewCount : Option JsNum := none
  inventoryStatus : Option InventoryStatus := none
  featured : Option Bool := none
  serialNumber : Option String := none
  stock : Option JsNum := none
deriving DecidableEq, Repr

/-- Helper `toList` (ProductAdminPanel.tsx 868–873): split on commas, trim
each entry, drop the empty ones. -/
def toList (value : String) : List String :=
  ((splitComma value.data).map (fun p => String.mk (charTrim p))).filter
    (fun s => strTruthy s)

/-- Pattern `s.trim() || undefined`: a trimmed-empty string becomes an absent
field. -/
def trimOrNone (s : String) : Option String :=
  let t := jsTrim s
  if strTruthy t then some t else none

/-- Stand-in for the `{} as CreateProductPayload` dummy that accompanies a
validation error (callers never read the payload on the error path). -/
def emptyPayload : CreateProductPayload where
  name := ""
  price := .val 0

/-- Result shape of `buildPayload`. -/
structure BuildPayloadResult where
  payload : CreateProductPayload
  error : Option String := none
deriving DecidableEq, Repr

/-- Value `originalPriceValue` of `buildPayload`:
`form.originalPrice.trim() !== "" ? Number(form.originalPrice) : undefined`. -/
def originalPriceValue (form : ProductFormState) : Option JsNum :=
  if jsTrim form.originalPrice ≠ "" then some (jsNumber form.originalPrice)
  else none

/-- Value `ratingValue` of `buildPayload`. -/
def ratingValue (form : ProductFormState) : Option JsNum :=
  if jsTrim form.rating ≠ "" then some (jsNumber form.rating) else none

/-- Value `reviewCountValue` of `buildPayload`. -/
def reviewCountValue (form : ProductFormState) : Option JsNum :=
  if jsTrim form.reviewCount ≠ "" then some (jsNumber form.reviewCount) else none

/-- Value `stockValue` of `buildPayload`. -/
def stockValue (form : ProductFormState) : Option JsNum :=
  if jsTrim form.stock ≠ "" then some (jsNumber form.stock) else none

/-- Validation sequence of `buildPayload` (ProductAdminPanel.tsx 811–836): the
message of the first failing check, in source order, or `none` when every
check passes. -/
def buildPayloadChecks (form : ProductFormState) : Option String :=
  let priceValue := jsNumber form.price
  if priceValue.isNan || priceValue.leZero then
    some "Price must be a positive number."
  else if (originalPriceValue form).any (fun v => v.isNan) then
    some "Original price must be a number."
  else if (ratingValue form).any (fun v => v.isNan || v.ltZero) then
    some "Rating must be a valid number."
  else if (reviewCountValue form).any (fun v => v.isNan) then
    some "Review count must be a valid number."
  else if (stockValue form).any (fun v => v.isNan) then
    some "Stock must be a valid number."
  else none

/-- Payload literal of `buildPayload`'s success path (ProductAdminPanel.tsx
838–865). -/
def buildPayloadSuccess (form : ProductFormState) : CreateProductPayload :=
  let badgesList := toList form.badges
  let tagsList := toList form.tags
  let imageUrl := jsTrim form.imageUrl
  let thumbnailUrl := jsTrim form.thumbnailUrl
  { name := jsTrim form.name
    slug := trimOrNone form.slug
    summary := trimOrNone form.summary
    description := trimOrNone form.description
    price := jsNumber form.price
    originalPrice := originalPriceValue form
    currency := trimOrNone form.currency
    imageUrl :=
      if strTruthy imageUrl && !jsStartsWith imageUrl "data:" then some imageUrl
      else none
    thumbnailUrl :=
      if strTruthy thumbnailUrl && !jsStartsWith thumbnailUrl "data:" then
        some thumbnailUrl
      else none
    badges := if 0 < badgesList.length then some badgesList else none
    tags := if 0 < tagsList.length then some tagsList else none
    rating := ratingValue form
    reviewCount := reviewCountValue form
    inventoryStatus := some form.inventoryStatus
    featured := some form.featured
    serialNumber := trimOrNone form.serialNumber
    stock := stockValue form }

/-- Shallow embedding of `buildPayload` (ProductAdminPanel.tsx 810–866): the
sequential early-return checks produce the first failing message, otherwise
the success payload literal is returned. -/
def buildPayload (form : ProductFormState) : BuildPayloadResult :=
  match buildPayloadChecks form with
  | some e => { payload := emptyPayload, error := some e }
  | none => { payload := buildPayloadSuccess form, error := none }

/-- Shallow embedding of `productToFormState` (ProductAdminPanel.tsx 875–899)
on a canonical `Product`. -/
def productToFormState (product : Product) : ProductFormState where
  name := product.name
  slug := product.slug.getD ""
  summary := product.summary.getD ""
  description := product.description.getD ""
  price :=
    match product.price with
    | some pr => numToString pr.amount
    | none => ""
  originalPrice :=
    match product.price with
    | some pr =>
      match pr.originalAmount with
      | some oa => numToString oa
      | none => ""
    | none => ""
  currency :=
    ((product.price.bind (fun pr => pr.currency)).orElse
      (fun _ => product.currency)).getD DEFAULT_PRODUCT_FORM.currency
  imageUrl := product.imageUrl.getD ""
  thumbnailUrl := product.thumbnailUrl.getD ""
  badges := joinCommaSpace (product.badges.getD [])
  tags := joinCommaSpace (product.tags.getD [])
  rating :=
    match product.rating with
    | some r => numToString r
    | none => ""
  reviewCount :=
    match product.reviewCount with
    | some r => numToString r
    | none => ""
  inventoryStatus := product.inventoryStatus.getD DEFAULT_PRODUCT_FORM.inventoryStatus
  featured := product.featured.getD false
  serialNumber := product.serialNumber.getD ""
  stock :=
    match product.stock with
    | some s => numToString s
    | none => ""

/-- Rendering `String(x)` of a JavaScript numeric value. -/
def JsNum.render : JsNum → String
  | .nan => "NaN"
  | .inf => "Infinity"
  | .negInf => "-Infinity"
  | .val q => numToString q

/-- Behaviour of `productToFormState` when it is applied — as the round-trip
property composes it — to a `CreateProductPayload` value.  Under JavaScript
field access `payload.price` is a bare number, so `payload.price?.amount`,
`payload.price?.originalAmount` and `payload.price?.currency` all read as
`undefined` (a boxed number has no such properties); every other field reads
exactly as in `productToFormState` (the payload does carry top-level
`currency`, `rating`, `reviewCount` and `stock`). -/
def payloadToFormState (payload : CreateProductPayload) : ProductFormState where
  name := payload.name
  slug := payload.slug.getD ""
  summary := payload.summary.getD ""
  description := payload.description.getD ""
  price := ""
  originalPrice := ""
  currency := payload.currency.getD DEFAULT_PRODUCT_FORM.currency
  imageUrl := payload.imageUrl.getD ""
  thumbnailUrl := payload.thumbnailUrl.getD ""
  badges := joinCommaSpace (payload.badges.getD [])
  tags := joinCommaSpace (payload.tags.getD [])
  rating :=
    match payload.rating with
    | some r => r.render
    | none => ""
  reviewCount :=
    match payload.reviewCount with
    | some r => r.render
    | none => ""
  inventoryStatus := payload.inventoryStatus.getD DEFAULT_PRODUCT_FORM.inventoryStatus
  featured := payload.featured.getD false
  serialNumber := payload.serialNumber.getD ""
  stock :=
    match payload.stock with
    | some s => s.render
    | none => ""

/-! ## Submission workflow (`handleSubmit`, ProductAdminPanel.tsx 682–758)

The asynchronous workflow is modelled as a pure function from the component
state and the outcomes of the two external collaborators (the image store
upload and the gateway save) to the ordered list of collaborator calls it
makes plus the resulting error/feedback.  The old-image deletion outcome is
not a parameter: the `catch` around it swallows failure, so the trace and the
result do not depend on it. -/

/-- Image file selected in the form; the model only needs its identity. -/
structure ImageFile where
  fileName : String
deriving DecidableEq, Repr

/-- Collaborator calls `handleSubmit` can make, in trace order. -/
inductive SubmitEvent where
  | uploadImage
  | deleteImage (url : String)
  | updateRequest (id : ProductId) (payload : CreateProductPayload)
  | createRequest (payload : CreateProductPayload)
  | refetch
deriving DecidableEq, Repr

/-- Result of one `handleSubmit` invocation. -/
structure SubmitOutcome where
  events : List SubmitEvent
  error : Option String := none
  feedback : Option String := none
deriving DecidableEq, Repr

/-- Shallow embedding of `handleSubmit`:

* validate and build the payload; a validation error aborts with no events;
* if an image file is selected, upload it first; on failure abort with the
  fixed upload error message; on success overwrite both image URLs in the
  payload with the returned URL (lines 699–724);
* default `thumbnailUrl` to `imageUrl` (lines 726–728);
* in edit mode, best-effort delete the old image when a new file replaced an
  existing one — this happens before the update call in the source (lines
  730–737) — then issue the update; otherwise issue the create;
* on gateway success set feedback and refetch; on gateway failure surface the
  extracted message and stop. -/
def handleSubmit (form : ProductFormState) (selectedImageFile : Option ImageFile)
    (editingProduct : Option Product) (uploadResult : Except Unit String)
    (saveResult : Except String Unit) : SubmitOutcome :=
  let pr := buildPayload form
  match pr.error with
  | some e => { events := [], error := some e }
  | none =>
    let payload := pr.payload
    let afterUpload : Except SubmitOutcome (CreateProductPayload × List SubmitEvent) :=
      match selectedImageFile with
      | some _ =>
        match uploadResult with
        | .ok url =>
          .ok ({ payload with imageUrl := some url, thumbnailUrl := some url },
            [.uploadImage])
        | .error _ =>
          .error
            { events := [.uploadImage],
              error := some "Failed to upload image to S3. Please try again." }
      | none => .ok (payload, [])
    match afterUpload with
    | .error out => out
    | .ok (p1, evs) =>
      let p2 :=
        if !optStrTruthy p1.thumbnailUrl && optStrTruthy p1.imageUrl then
          { p1 with thumbnailUrl := p1.imageUrl }
        else p1
      match editingProduct with
      | some ep =>
        let evs2 :=
          evs ++
            (if selectedImageFile.isSome && optStrTruthy ep.imageUrl then
              [SubmitEvent.deleteImage (ep.imageUrl.getD "")]
            else []) ++ [SubmitEvent.updateRequest ep.id p2]
        match saveResult with
        | .ok _ =>
          { events := evs2 ++ [.refetch],
            feedback := some ("Product \"" ++ ep.name ++ "\" updated.") }
        | .error msg => { events := evs2, error := some msg }
      | none =>
        let evs2 := evs ++ [SubmitEvent.createRequest p2]
        match saveResult with
        | .ok _ =>
          { events := evs2 ++ [.refetch],
            feedback := some "Product created successfully." }
        | .error msg => { events := evs2, error := some msg }

/-! ## ApiClient header state (src/lib/api.ts) and the gateway
(src/services/productService.ts) -/

/-- Default-header state of the shared `ApiClient`.  The client is constructed
with a plain object (`{ "Content-Type": "application/json" }`) and `setHeader`
keeps it a plain object, so only the plain-object variant of `HeadersInit` is
modelled: an association list with JavaScript object-key semantics (updating
an existing key keeps its position, a new key is appended). -/
structure ApiClientState where
  defaultHeaders : List (String × String)
deriving DecidableEq, Repr

/-- JavaScript object update `{ ...obj, [n]: v }`. -/
def objSet : List (String × String) → String → String → List (String × String)
  | [], n, v => [(n, v)]
  | (k, w) :: t, n, v => if k = n then (k, v) :: t else (k, w) :: objSet t n v

/-- JavaScript object key deletion. -/
def objRemove : List (String × String) → String → List (String × String)
  | [], _ => []
  | (k, w) :: t, n => if k = n then objRemove t n else (k, w) :: objRemove t n

/-- JavaScript object key lookup. -/
def objLookup : List (String × String) → String → Option String
  | [], _ => none
  | (k, w) :: t, n => if k = n then some w else objLookup t n

/-- `ApiClient.setHeader` (api.ts 48–56), plain-object branch. -/
def setHeader (c : ApiClientState) (n v : String) : ApiClientState :=
  { defaultHeaders := objSet c.defaultHeaders n v }

/-- Modelled from the spec: `ApiClient.removeHeader`.  `ensureAuthHeader`
(productService.ts 281) calls `apiClient.removeHeader("Authorization")`, but
no `removeHeader` definition appears in the `src/lib/api.ts` snapshot; the
spec states "if no token is present, remove any previously set authorization
header", so the method is modelled as deleting the named default header. -/
def removeHeader (c : ApiClientState) (n : String) : ApiClientState :=
  { defaultHeaders := objRemove c.defaultHeaders n }

/-- Shared client as constructed at the bottom of api.ts. -/
def initialClient : ApiClientState :=
  { defaultHeaders := [("Content-Type", "application/json")] }

/-- `ensureAuthHeader` (productService.ts 277–285) in a browser context
(`typeof window !== "undefined"`): refresh the Authorization default header
from the token store. -/
def ensureAuthHeader (token : Option String) (c : ApiClientState) : ApiClientState :=
  match token with
  | none => removeHeader c "Authorization"
  | some t => setHeader c "Authorization" ("Bearer " ++ t)

/-- Request issued through `ApiClient.request`: the verb, the path, and the
headers it is sent with (`mergeHeaders` returns the default headers unchanged
because the product-service calls pass no per-request headers).  Query and
body are not modelled; no claim in scope depends on them. -/
structure HttpRequest where
  method : String
  path : String
  headers : List (String × String)
deriving DecidableEq, Repr

/-- JavaScript truthiness of a product id: the number `0` and the empty
string are the falsy values a `ProductId` can hold. -/
def idFalsy : ProductId → Bool
  | .num q => decide (q = 0)
  | .str s => s = ""

/-- Rendering `String(productId)`; `encodeURIComponent` is the identity on
the ids the claims evaluate and is not modelled further. -/
def idString : ProductId → String
  | .num q => numToString q
  | .str s => s

/-- Partial payload `UpdateProductPayload = Partial<CreateProductPayload>`;
`none` stands for a key that is absent or holds `undefined`. -/
structure UpdateProductPayload where
  name : Option String := none
  slug : Option String := none
  summary : Option String := none
  description : Option String := none
  price : Option JsNum := none
  originalPrice : Option JsNum := none
  currency : Option String := none
  imageUrl : Option String := none
  thumbnailUrl : Option String := none
  badges : Option (List String) := none
  tags : Option (List String) := none
  rating : Option JsNum := none
  reviewCount : Option JsNum := none
  inventoryStatus : Option InventoryStatus := none
  featured : Option Bool := none
  serialNumber : Option String := none
  stock : Option JsNum := none
deriving DecidableEq, Repr

/-- Spread `{ ...payload }` that builds the update payload out of the create
payload (ProductAdminPanel.tsx 739). -/
def toUpdatePayload (p : CreateProductPayload) : UpdateProductPayload where
  name := some p.name
  slug := p.slug
  summary := p.summary
  description := p.description
  price := some p.price
  originalPrice := p.originalPrice
  currency := p.currency
  imageUrl := p.imageUrl
  thumbnailUrl := p.thumbnailUrl
  badges := p.badges
  tags := p.tags
  rating := p.rating
  reviewCount := p.reviewCount
  inventoryStatus := p.inventoryStatus
  featured := p.featured
  serialNumber := p.serialNumber
  stock := p.stock

/-- Emptiness test `Object.keys(payload).length === 0` (productService.ts
252).  The model conflates an absent key with a key holding `undefined`, so
this check holds on a superset of the payloads the real key-count check
rejects; the claims only rely on the check being false, which the model then
soundly implies. -/
def updatePayloadEmpty (p : UpdateProductPayload) : Bool :=
  p.name.isNone && p.slug.isNone && p.summary.isNone && p.description.isNone &&
  p.price.isNone && p.originalPrice.isNone && p.currency.isNone &&
  p.imageUrl.isNone && p.thumbnailUrl.isNone && p.badges.isNone &&
  p.tags.isNone && p.rating.isNone && p.reviewCount.isNone &&
  p.inventoryStatus.isNone && p.featured.isNone && p.serialNumber.isNone &&
  p.stock.isNone

/-- `productService.list` (productService.ts 203–219): no validation, refresh
the auth header, then issue `GET /products`.  Query encoding and response
normalization are outside the claims in scope. -/
def productServiceList (token : Option String) (c : ApiClientState) :
    HttpRequest × ApiClientState :=
  let c2 := ensureAuthHeader token c
  ({ method := "GET", path := "/products", headers := c2.defaultHeaders }, c2)

/-- `productService.getById` (productService.ts 224–231). -/
def productServiceGetById (token : Option String) (c : ApiClientState)
    (productId : ProductId) : Except String (HttpRequest × ApiClientState) :=
  if idFalsy productId then
    .error "A product id must be provided to fetch product details."
  else
    let c2 := ensureAuthHeader token c
    .ok ({ method := "GET", path := "/products/" ++ idString productId,
           headers := c2.defaultHeaders }, c2)

/-- `productService.create` (productService.ts 236–243). -/
def productServiceCreate (token : Option String) (c : ApiClientState)
    (payload : CreateProductPayload) : Except String (HttpRequest × ApiClientState) :=
  if !strTruthy payload.name then
    .error "Product name is required."
  else
    let c2 := ensureAuthHeader token c
    .ok ({ method := "POST", path := "/products", headers := c2.defaultHeaders }, c2)

/-- `productService.update` (productService.ts 248–261); note the id guard
`!productId && productId !== 0` that lets the number `0` through. -/
def productServiceUpdate (token : Option String) (c : ApiClientState)
    (productId : ProductId) (payload : UpdateProductPayload) :
    Except String (HttpRequest × ApiClientState) :=
  if idFalsy productId && !(productId == ProductId.num 0) then
    .error "A product id must be provided to update a product."
  else if updatePayloadEmpty payload then
    .error "At least one field must be provided to update a product."
  else
    let c2 := ensureAuthHeader token c
    .ok ({ method := "PUT", path := "/products/" ++ idString productId,
           headers := c2.defaultHeaders }, c2)

/-- `productService.delete` (productService.ts 266–272), with the same id
guard as `update`. -/
def productServiceDelete (token : Option String) (c : ApiClientState)
    (productId : ProductId) : Except String (HttpRequest × ApiClientState) :=
  if idFalsy productId && !(productId == ProductId.num 0) then
    .error "A product id must be provided to delete a product."
  else
    let c2 := ensureAuthHeader token c
    .ok ({ method := "DELETE", path := "/products/" ++ idString productId,
           headers := c2.defaultHeaders }, c2)

/-! ## Derived predicates and concrete fixtures used by the theorems -/

/-- Per-element predicate of the search stage (`true` when the stage is
inactive). -/
def searchPred (o : ClientFilterOptions) (p : Product) : Bool :=
  let searchQuery := (o.search.map (fun s => strLower (jsTrim s))).getD ""
  !strTruthy searchQuery || jsIncludes (searchHaystack p) searchQuery

/-- Per-element predicate of the tag stage. -/
def tagsPred (o : ClientFilterOptions) (p : Product) : Bool :=
  match o.tags with
  | some ts =>
    !decide (0 < ts.length) ||
      ((p.tags.getD []).map strLower).any (fun t => (ts.map strLower).contains t)
  | none => true

/-- Per-element predicate of the category stage. -/
def categoryPred (o : ClientFilterOptions) (p : Product) : Bool :=
  match o.category with
  | some c =>
    !strTruthy c || ((p.tags.getD []).map strLower).contains (strLower c)
  | none => true

/-- Per-element predicate of the lower price bound stage. -/
def minPricePred (o : ClientFilterOptions) (p : Product) : Bool :=
  match o.minPrice with
  | some m =>
    match p.price with
    | some pr => decide (m ≤ pr.amount)
    | none => false
  | none => true

/-- Per-element predicate of the upper price bound stage. -/
def maxPricePred (o : ClientFilterOptions) (p : Product) : Bool :=
  match o.maxPrice with
  | some m =>
    match p.price with
    | some pr => decide (pr.amount ≤ m)
    | none => false
  | none => true

/-- Per-element predicate of the featured stage. -/
def featuredPred (o : ClientFilterOptions) (p : Product) : Bool :=
  match o.featured with
  | some f => p.featured.getD false == f
  | none => true

/-- Abbreviation for the six narrowing filter stages in source order. -/
def filterStages (o : ClientFilterOptions) (ps : List Product) : List Product :=
  featuredStage o
    (maxPriceStage o
      (minPriceStage o
        (categoryStage o
          (tagsStage o
            (searchStage o ps)))))

/-- Sorts that fall into the `default` arm of the sort `switch`. -/
def isDefaultSort (s : Option String) : Bool :=
  !(s == some "price_asc" || s == some "price_desc" || s == some "rating" ||
    s == some "newest")

/-- Start index of the pagination slice for a natural-number limit `k`:
`(max(page ? floor(page) : 1, 1) - 1) * k`. -/
def startIdx (page : Option ℚ) (k : ℕ) : ℕ :=
  ((max
      (match page with
       | some p => if p = 0 then 1 else Rat.floor p
       | none => 1)
      1).toNat - 1) * k

/-- Test for an old-image deletion event. -/
def isDeleteEv : SubmitEvent → Bool
  | .deleteImage _ => true
  | _ => false

/-- Test for a gateway update event. -/
def isUpdateEv : SubmitEvent → Bool
  | .updateRequest _ _ => true
  | _ => false

/-- Fixture: the two products of spec Scenario A. -/
def redMugS : Product :=
  { id := .str "red", name := "Red Mug", price := some { amount := 10 } }

/-- Fixture: second product of spec Scenario A. -/
def blueMugS : Product :=
  { id := .str "blue", name := "Blue Mug", price := some { amount := 5 } }

/-- Fixture: a product without a price, for the `price_desc` placement
check. -/
def noPriceMug : Product := { id := .str "np", name := "Bare Mug" }

/-- Fixture: a cheap priced product, for the `price_desc` placement check. -/
def cheapMug : Product :=
  { id := .str "cheap", name := "Cheap Mug", price := some { amount := 5 } }

/-- Fixture: four distinct products for the pagination boundary scenario. -/
def pagMug (n : ℕ) : Product :=
  { id := .num (n : ℚ), name := "Mug " ++ natToStr n }

/-- Fixture: a product whose form round-trip is evaluated concretely. -/
def rtProduct : Product :=
  { id := .str "p1", name := "Red Mug", price := some { amount := 10 },
    tags := some ["a", "b"], badges := some ["x"] }

/-- Fixture: a valid form (price parses to 10) used to exercise the submit
workflow. -/
def validForm : ProductFormState :=
  { DEFAULT_PRODUCT_FORM with name := "Widget", price := "10" }

/-- Fixture: a form whose price field is `"0"`. -/
def priceZeroForm : ProductFormState :=
  { DEFAULT_PRODUCT_FORM with name := "Widget", price := "0" }

/-- Fixture: the product being edited in the image-replacement scenario; it
carries an old image URL. -/
def editedOld : Product :=
  { id := .num 1, name := "Old Mug", imageUrl := some "https://img/old.png" }

/-- Fixture: the newly selected image file. -/
def newFile : ImageFile := { fileName := "new.png" }

/-- Events of the edit-mode submit with a newly selected image, successful
upload and successful save. -/
def editSubmitEvents : List SubmitEvent :=
  (handleSubmit validForm (some newFile) (some editedOld)
    (.ok "https://img/new.png") (.ok ())).events

/-- Payload that reaches the gateway call after a successful upload overwrote
both image URLs (including the subsequent thumbnail defaulting step). -/
def submitUploadPayload (form : ProductFormState) (url : String) : CreateProductPayload :=
  let p1 := { (buildPayload form).payload with
    imageUrl := some url, thumbnailUrl := some url }
  if !optStrTruthy p1.thumbnailUrl && optStrTruthy p1.imageUrl then
    { p1 with thumbnailUrl := p1.imageUrl }
  else p1

/-! ## Header bookkeeping lemmas -/

theorem objLookup_objSet_self (l : List (String × String)) (n v : String) :
    objLookup (objSet l n v) n = some v := by
  induction l with
  | nil => simp [objSet, objLookup]
  | cons hd tl ih =>
    by_cases h : hd.1 = n <;> simp [objSet, objLookup, h, ih]

theorem objLookup_objRemove_self (l : List (String × String)) (n : String) :
    objLookup (objRemove l n) n = none := by
  induction l with
  | nil => simp [objRemove, objLookup]
  | cons hd tl ih =>
    by_cases h : hd.1 = n <;> simp [objRemove, objLookup, h, ih]

/-- After `ensureAuthHeader`, the Authorization default header is exactly the
current token. -/
theorem authHeader_lookup (token : Option String) (c : ApiClientState) :
    objLookup (ensureAuthHeader token c).defaultHeaders "Authorization" =
      token.map (fun t => "Bearer " ++ t) := by
  cases token with
  | none => simp [ensureAuthHeader, removeHeader, objLookup_objRemove_self]
  | some t => simp [ensureAuthHeader, setHeader, objLookup_objSet_self]

/-! ## Claim theorems -/

/-- C2: before every gateway operation the outgoing Authorization header is
refreshed from the token store — when a token is present the issued request
carries `Bearer <token>`, and when no token is present any previously set
Authorization header is removed — after which the call proceeds normally.
(`ApiClient.removeHeader` is modelled from the spec; see `removeHeader`.) -/
theorem c2_gateway_refreshes_auth_header (token : Option String) (c : ApiClientState) :
    (objLookup (productServiceList token c).1.headers "Authorization" =
        token.map (fun t => "Bearer " ++ t)) ∧
    (∀ productId r, productServiceGetById token c productId = Except.ok r →
        objLookup r.1.headers "Authorization" = token.map (fun t => "Bearer " ++ t)) ∧
    (∀ payload r, productServiceCreate token c payload = Except.ok r →
        objLookup r.1.headers "Authorization" = token.map (fun t => "Bearer " ++ t)) ∧
    (∀ productId payload r, productServiceUpdate token c productId payload = Except.ok r →
        objLookup r.1.headers "Authorization" = token.map (fun t => "Bearer " ++ t)) ∧
    (∀ productId r, productServiceDelete token c productId = Except.ok r →
        objLookup r.1.headers "Authorization" = token.map (fun t => "Bearer " ++ t)) := by
  refine ⟨?_, ?_, ?_, ?_, ?_⟩
  · simpa [productServiceList] using authHeader_lookup token c
  · intro pid r h
    unfold productServiceGetById at h
    split at h
    · exact Except.noConfusion h
    · injection h with h2
      rw [← h2]
      exact authHeader_lookup token c
  · intro payload r h
    unfold productServiceCreate at h
    split at h
    · exact Except.noConfusion h
    · injection h with h2
      rw [← h2]
      exact authHeader_lookup token c
  · intro pid payload r h
    unfold productServiceUpdate at h
    split at h
    · exact Except.noConfusion h
    · split at h
      · exact Except.noConfusion h
      · injection h with h2
        rw [← h2]
        exact authHeader_lookup token c
  · intro pid r h
    unfold productServiceDelete at h
    split at h
    · exact Except.noConfusion h
    · injection h with h2
      rw [← h2]
      exact authHeader_lookup token c

/-- Witness for C2: a list call with a token carries `Bearer tok`; one without
a token, on a client that previously had an Authorization header, carries
none. -/
theorem c2_witness :
    objLookup (productServiceList (some "tok") initialClient).1.headers
        "Authorization" = some "Bearer tok" ∧
    objLookup (productServiceList none
        (setHeader initialClient "Authorization" "Bearer old")).1.headers
        "Authorization" = none :=
  ⟨(c2_gateway_refreshes_auth_header (some "tok") initialClient).1,
   (c2_gateway_refreshes_auth_header none
      (setHeader initialClient "Authorization" "Bearer old")).1⟩

/-- C4: `submit()` fails with "Price must be a positive number." whenever the
price field does not parse to a number strictly greater than 0, and in that
case no collaborator call at all is made — no upload, no gateway call. -/
theorem c4_price_validation_blocks_submit (form : ProductFormState)
    (sel : Option ImageFile) (ep : Option Product) (up : Except Unit String)
    (sv : Except String Unit)
    (h : ((jsNumber form.price).isNan || (jsNumber form.price).leZero) = true) :
    handleSubmit form sel ep up sv =
      { events := [], error := some "Price must be a positive number.",
        feedback := none } := by
  simp [handleSubmit, buildPayload, buildPayloadChecks, h]

/-- Witness for C4 at the form with price `"0"` (spec Scenario C). -/
theorem c4_witness :
    handleSubmit priceZeroForm none none (.ok "https://u") (.ok ()) =
      { events := [], error := some "Price must be a positive number.",
        feedback := none } :=
  c4_price_validation_blocks_submit priceZeroForm none none (.ok "https://u")
    (.ok ()) (by decide)

/-- Helper: either `buildPayload` reports an error, or its payload fields are
the documented ones (the subset of fields the claims inspect). -/
theorem buildPayload_error_or_fields (form : ProductFormState) :
    (buildPayload form).error.isSome = true ∨
    ((buildPayload form).payload.name = jsTrim form.name ∧
     (buildPayload form).payload.tags =
       (if 0 < (toList form.tags).length then some (toList form.tags) else none) ∧
     (buildPayload form).payload.badges =
       (if 0 < (toList form.badges).length then some (toList form.badges) else none) ∧
     (buildPayload form).payload.inventoryStatus = some form.inventoryStatus ∧
     (buildPayload form).payload.featured = some form.featured) := by
  cases hc : buildPayloadChecks form <;>
    simp [buildPayload, hc, buildPayloadSuccess]

/-- C9: on every form state accepted by `buildPayload`, the payload carries
`inventoryStatus` and `featured` (never omitted), so the update payload built
from it is never empty and `productService.update`'s "At least one field must
be provided to update a product." branch is unreachable from the form's
submit flow. -/
theorem c9_payload_never_empty (form : ProductFormState)
    (h : (buildPayload form).error = none) :
    (buildPayload form).payload.inventoryStatus = some form.inventoryStatus ∧
    (buildPayload form).payload.featured = some form.featured ∧
    ∀ (token : Option String) (c : ApiClientState) (productId : ProductId),
      productServiceUpdate token c productId
          (toUpdatePayload (buildPayload form).payload) ≠
        Except.error "At least one field must be provided to update a product." := by
  rcases buildPayload_error_or_fields form with hb | hb
  · rw [h] at hb
    exact absurd hb (by simp)
  · obtain ⟨-, -, -, hinv, hfeat⟩ := hb
    refine ⟨hinv, hfeat, ?_⟩
    intro token c pid
    unfold productServiceUpdate
    split
    · intro hc
      injection hc with hmsg
      exact absurd hmsg (by decide)
    · split
      · rename_i hempty
        simp [updatePayloadEmpty, toUpdatePayload] at hempty
      · simp

/-- Witness for C9 on a concrete valid form. -/
theorem c9_witness :
    (buildPayload validForm).payload.featured = some false ∧
    productServiceUpdate (some "tok") initialClient (.str "p1")
        (toUpdatePayload (buildPayload validForm).payload) ≠
      Except.error "At least one field must be provided to update a product." :=
  ⟨(c9_payload_never_empty validForm (by decide)).2.1,
   (c9_payload_never_empty validForm (by decide)).2.2 (some "tok") initialClient
     (.str "p1")⟩

/-- C10: the gateway treats the numeric id 0 inconsistently — `getById` throws
its invalid-argument error for every falsy id including 0, while `update` and
`delete` reject exactly the ids that are falsy and different from the number
0, so a product with id 0 can be updated and deleted but never fetched
individually. -/
theorem c10_gateway_id_zero (token : Option String) (c : ApiClientState) :
    (∀ productId, idFalsy productId = true →
        productServiceGetById token c productId =
          Except.error "A product id must be provided to fetch product details.") ∧
    (∀ productId payload,
        (productServiceUpdate token c productId payload =
            Except.error "A product id must be provided to update a product.") ↔
          (idFalsy productId = true ∧ productId ≠ .num 0)) ∧
    (∀ productId,
        (productServiceDelete token c productId =
            Except.error "A product id must be provided to delete a product.") ↔
          (idFalsy productId = true ∧ productId ≠ .num 0)) ∧
    (∀ payload, updatePayloadEmpty payload = false →
        ∃ r, productServiceUpdate token c (.num 0) payload = Except.ok r) ∧
    (∃ r, productServiceDelete token c (.num 0) = Except.ok r) := by
  refine ⟨?_, ?_, ?_, ?_, ?_⟩
  · intro pid h
    unfold productServiceGetById
    rw [if_pos h]
  · intro pid payload
    unfold productServiceUpdate
    split
    · rename_i hc
      rw [Bool.and_eq_true, Bool.not_eq_true', beq_eq_false_iff_ne] at hc
      exact iff_of_true rfl hc
    · rename_i hc
      have hc2 : idFalsy pid = true → pid = ProductId.num 0 := by
        intro h1
        by_contra h2
        exact hc (by rw [Bool.and_eq_true, Bool.not_eq_true', beq_eq_false_iff_ne]
                     exact ⟨h1, h2⟩)
      refine iff_of_false ?_ (fun hand => hand.2 (hc2 hand.1))
      split
      · intro hx
        injection hx with hmsg
        exact absurd hmsg (by decide)
      · intro hx
        exact absurd hx (by simp)
  · intro pid
    unfold productServiceDelete
    split
    · rename_i hc
      rw [Bool.and_eq_true, Bool.not_eq_true', beq_eq_false_iff_ne] at hc
      exact iff_of_true rfl hc
    · rename_i hc
      have hc2 : idFalsy pid = true → pid = ProductId.num 0 := by
        intro h1
        by_contra h2
        exact hc (by rw [Bool.and_eq_true, Bool.not_eq_true', beq_eq_false_iff_ne]
                     exact ⟨h1, h2⟩)
      refine iff_of_false ?_ (fun hand => hand.2 (hc2 hand.1))
      intro hx
      exact absurd hx (by simp)
  · intro payload hne
    unfold productServiceUpdate
    rw [if_neg (by decide), if_neg (by simp [hne])]
    exact ⟨_, rfl⟩
  · unfold productServiceDelete
    rw [if_neg (by decide)]
    exact ⟨_, rfl⟩

/-- Witness for C10: `getById` rejects the id 0 that `delete` accepts. -/
theorem c10_witness :
    productServiceGetById none initialClient (.num 0) =
      Except.error "A product id must be provided to fetch product details." ∧
    (∃ r, productServiceDelete none initialClient (.num 0) = Except.ok r) :=
  ⟨(c10_gateway_id_zero none initialClient).1 (.num 0) (by decide),
   (c10_gateway_id_zero none initialClient).2.2.2.2⟩

/-- C1 counterexample: in edit mode with a newly selected image, successful
upload and successful save, the old-image deletion is the second event and
the gateway update is the third — the deletion runs before the save, not
after it as the claim states. -/
theorem c1_delete_before_update_cex :
    editSubmitEvents.length = 4 ∧
    editSubmitEvents.findIdx isDeleteEv = 1 ∧
    editSubmitEvents.findIdx isUpdateEv = 2 ∧
    ¬ (editSubmitEvents.findIdx isUpdateEv < editSubmitEvents.findIdx isDeleteEv) := by
  decide

/-- C1 (amended): within a single `submit()` in edit mode with a newly
selected image file whose upload succeeds, the trace is: image upload first,
then the best-effort deletion of the old image, and only then the gateway
update call; this sequence is never reordered. -/
theorem c1_edit_image_event_order (form : ProductFormState) (file : ImageFile)
    (ep : Product) (url : String) (sv : Except String Unit)
    (hok : (buildPayload form).error = none)
    (himg : optStrTruthy ep.imageUrl = true) :
    (handleSubmit form (some file) (some ep) (.ok url) sv).events =
      SubmitEvent.uploadImage :: SubmitEvent.deleteImage (ep.imageUrl.getD "") ::
        SubmitEvent.updateRequest ep.id (submitUploadPayload form url) ::
          (match sv with
           | .ok _ => [SubmitEvent.refetch]
           | .error _ => []) := by
  unfold handleSubmit submitUploadPayload
  simp only [hok]
  cases sv <;> simp [himg]

/-- Witness for C1 (amended) on the concrete edit scenario. -/
theorem c1_witness :
    editSubmitEvents =
      SubmitEvent.uploadImage ::
        SubmitEvent.deleteImage (editedOld.imageUrl.getD "") ::
          SubmitEvent.updateRequest editedOld.id
            (submitUploadPayload validForm "https://img/new.png") ::
            [SubmitEvent.refetch] :=
  c1_edit_image_event_order validForm newFile editedOld "https://img/new.png"
    (.ok ()) (by decide) (by decide)

/-! ## Sort comparator lemmas -/

theorem leAsc_trans : ∀ a b c, leAsc a b = true → leAsc b c = true →
    leAsc a c = true := by
  intro a b c h1 h2
  simp only [leAsc, decide_eq_true_eq] at *
  exact le_trans h1 h2

theorem leAsc_total : ∀ a b, (leAsc a b || leAsc b a) = true := by
  intro a b
  simp only [leAsc, Bool.or_eq_true, decide_eq_true_eq]
  exact le_total _ _

theorem leDesc_trans : ∀ a b c, leDesc a b = true → leDesc b c = true →
    leDesc a c = true := by
  intro a b c h1 h2
  simp only [leDesc, decide_eq_true_eq] at *
  exact le_trans h2 h1

theorem leDesc_total : ∀ a b, (leDesc a b || leDesc b a) = true := by
  intro a b
  simp only [leDesc, Bool.or_eq_true, decide_eq_true_eq]
  exact le_total _ _

theorem leRating_trans : ∀ a b c, leRating a b = true → leRating b c = true →
    leRating a c = true := by
  intro a b c h1 h2
  simp only [leRating, decide_eq_true_eq] at *
  exact le_trans h2 h1

theorem leRating_total : ∀ a b, (leRating a b || leRating b a) = true := by
  intro a b
  simp only [leRating, Bool.or_eq_true, decide_eq_true_eq]
  exact le_total _ _

theorem leNewest_trans : ∀ a b c, leNewest a b = true → leNewest b c = true →
    leNewest a c = true := by
  intro a b c h1 h2
  simp only [leNewest, decide_eq_true_eq] at *
  exact le_trans h2 h1

theorem leNewest_total : ∀ a b, (leNewest a b || leNewest b a) = true := by
  intro a b
  simp only [leNewest, Bool.or_eq_true, decide_eq_true_eq]
  exact le_total _ _

theorem leDefault_trans : ∀ a b c, leDefault a b = true → leDefault b c = true →
    leDefault a c = true := by
  intro a b c h1 h2
  simp only [leDefault, decide_eq_true_eq] at *
  exact le_trans h2 h1

theorem leDefault_total : ∀ a b, (leDefault a b || leDefault b a) = true := by
  intro a b
  simp only [leDefault, Bool.or_eq_true, decide_eq_true_eq]
  exact le_total _ _

/-- The dispatched comparator is always one of the five branch comparators. -/
theorem sortLE_eq (s : Option String) :
    sortLE s = leAsc ∨ sortLE s = leDesc ∨ sortLE s = leRating ∨
    sortLE s = leNewest ∨ sortLE s = leDefault := by
  unfold sortLE
  split
  · exact Or.inl rfl
  · exact Or.inr (Or.inl rfl)
  · exact Or.inr (Or.inr (Or.inl rfl))
  · exact Or.inr (Or.inr (Or.inr (Or.inl rfl)))
  · exact Or.inr (Or.inr (Or.inr (Or.inr rfl)))

theorem sortLE_trans (s : Option String) : ∀ a b c,
    sortLE s a b = true → sortLE s b c = true → sortLE s a c = true := by
  rcases sortLE_eq s with h | h | h | h | h <;> rw [h]
  exacts [leAsc_trans, leDesc_trans, leRating_trans, leNewest_trans, leDefault_trans]

theorem sortLE_total (s : Option String) : ∀ a b,
    (sortLE s a b || sortLE s b a) = true := by
  rcases sortLE_eq s with h | h | h | h | h <;> rw [h]
  exacts [leAsc_total, leDesc_total, leRating_total, leNewest_total, leDefault_total]

/-- Sorts in the `default` arm dispatch to the featured comparator. -/
theorem sortLE_default (s : Option String) (h : isDefaultSort s = true) :
    sortLE s = leDefault := by
  unfold sortLE
  split
  · exact absurd h (by decide)
  · exact absurd h (by decide)
  · exact absurd h (by decide)
  · exact absurd h (by decide)
  · rfl

/-- The sort stage output is sorted by the dispatched comparator. -/
theorem sortStage_pairwise (o : ClientFilterOptions) (l : List Product) :
    (sortStage o l).Pairwise (fun a b => sortLE o.sort a b = true) :=
  List.sorted_mergeSort (sortLE_trans o.sort) (sortLE_total o.sort) l

theorem jsSlice_sublist {α : Type} (l : List α) (a b : ℚ) :
    jsSlice l a b <+ l := by
  unfold jsSlice
  exact (List.take_sublist _ _).trans (List.drop_sublist _ _)

theorem paginateStage_sublist (o : ClientFilterOptions) (l : List Product) :
    paginateStage o l <+ l := by
  unfold paginateStage
  split
  · split
    · exact jsSlice_sublist _ _ _
    · exact List.Sublist.refl l
  · exact List.Sublist.refl l

theorem searchStage_sublist (o : ClientFilterOptions) (l : List Product) :
    searchStage o l <+ l := by
  simp only [searchStage]
  split
  · exact List.filter_sublist l
  · exact List.Sublist.refl l

theorem tagsStage_sublist (o : ClientFilterOptions) (l : List Product) :
    tagsStage o l <+ l := by
  unfold tagsStage
  split
  · split
    · exact List.filter_sublist l
    · exact List.Sublist.refl l
  · exact List.Sublist.refl l

theorem categoryStage_sublist (o : ClientFilterOptions) (l : List Product) :
    categoryStage o l <+ l := by
  unfold categoryStage
  split
  · split
    · exact List.filter_sublist l
    · exact List.Sublist.refl l
  · exact List.Sublist.refl l

theorem minPriceStage_sublist (o : ClientFilterOptions) (l : List Product) :
    minPriceStage o l <+ l := by
  unfold minPriceStage
  split
  · exact List.filter_sublist l
  · exact List.Sublist.refl l

theorem maxPriceStage_sublist (o : ClientFilterOptions) (l : List Product) :
    maxPriceStage o l <+ l := by
  unfold maxPriceStage
  split
  · exact List.filter_sublist l
  · exact List.Sublist.refl l

theorem featuredStage_sublist (o : ClientFilterOptions) (l : List Product) :
    featuredStage o l <+ l := by
  unfold featuredStage
  split
  · exact List.filter_sublist l
  · exact List.Sublist.refl l

theorem filterStages_sublist (o : ClientFilterOptions) (ps : List Product) :
    filterStages o ps <+ ps :=
  ((((((featuredStage_sublist o _).trans
    (maxPriceStage_sublist o _)).trans
      (minPriceStage_sublist o _)).trans
        (categoryStage_sublist o _)).trans
          (tagsStage_sublist o _)).trans
            (searchStage_sublist o ps))

/-- C7 counterexample: under `price_desc` a product without a price sorts
last, not first — the comparator substitutes `-Infinity` for the missing
amount, which in a descending order places the product at the end. -/
theorem c7_price_desc_missing_cex :
    applyClientFilters [noPriceMug, cheapMug] { sort := some "price_desc" } =
      [cheapMug, noPriceMug] ∧
    noPriceMug.price = none ∧ cheapMug.price ≠ none ∧
    (applyClientFilters [noPriceMug, cheapMug]
        { sort := some "price_desc" }).head? ≠ some noPriceMug := by
  have h : applyClientFilters [noPriceMug, cheapMug] { sort := some "price_desc" } =
      [cheapMug, noPriceMug] := by
    simp +decide [applyClientFilters, paginateStage, sortStage, featuredStage,
      maxPriceStage, minPriceStage, categoryStage, tagsStage, searchStage,
      List.mergeSort, List.splitInTwo, List.merge, sortLE, leDesc, descPriceKey,
      noPriceMug, cheapMug]
  refine ⟨h, by decide, by decide, ?_⟩
  rw [h]
  decide

/-- C7 (amended): `price_asc` orders ascending by `price.amount` with a
missing price treated as `+Infinity` (such products sort last), and
`price_desc` orders descending with a missing price treated as `-Infinity`
(such products likewise sort last); on Red Mug (10) and Blue Mug (5),
`price_asc` yields [Blue Mug, Red Mug]. -/
theorem c7_price_sort_order :
    (∀ (ps : List Product) (o : ClientFilterOptions), o.sort = some "price_asc" →
      (applyClientFilters ps o).Pairwise
        (fun a b => ascPriceKey a ≤ ascPriceKey b)) ∧
    (∀ (ps : List Product) (o : ClientFilterOptions), o.sort = some "price_desc" →
      (applyClientFilters ps o).Pairwise
        (fun a b => descPriceKey b ≤ descPriceKey a)) ∧
    applyClientFilters [redMugS, blueMugS] { sort := some "price_asc" } =
      [blueMugS, redMugS] := by
  refine ⟨?_, ?_, ?_⟩
  · intro ps o h
    have hkey : sortLE o.sort = leAsc := by rw [h]; rfl
    refine List.Pairwise.sublist (paginateStage_sublist o _) ?_
    have hs := sortStage_pairwise o (filterStages o ps)
    rw [hkey] at hs
    exact hs.imp (fun hab => by simpa [leAsc, decide_eq_true_eq] using hab)
  · intro ps o h
    have hkey : sortLE o.sort = leDesc := by rw [h]; rfl
    refine List.Pairwise.sublist (paginateStage_sublist o _) ?_
    have hs := sortStage_pairwise o (filterStages o ps)
    rw [hkey] at hs
    exact hs.imp (fun hab => by simpa [leDesc, decide_eq_true_eq] using hab)
  · simp +decide [applyClientFilters, paginateStage, sortStage, featuredStage,
      maxPriceStage, minPriceStage, categoryStage, tagsStage, searchStage,
      List.mergeSort, List.splitInTwo, List.merge, sortLE, leAsc, ascPriceKey,
      redMugS, blueMugS]

/-- Witness for C7 (amended) on a concrete descending sort. -/
theorem c7_witness :
    (applyClientFilters [noPriceMug, cheapMug]
        { sort := some "price_desc" }).Pairwise
      (fun a b => descPriceKey b ≤ descPriceKey a) :=
  c7_price_sort_order.2.1 [noPriceMug, cheapMug] { sort := some "price_desc" } rfl

/-- Stability of the stable sort on an equal-key class: the class's sublist is
unchanged by sorting. -/
theorem stable_filter_class (le : Product → Product → Bool)
    (htrans : ∀ a b c, le a b = true → le b c = true → le a c = true)
    (htotal : ∀ a b, (le a b || le b a) = true)
    (cls : Product → Bool)
    (hcls : ∀ a b, cls a = true → cls b = true → le a b = true)
    (l : List Product) :
    (l.mergeSort le).filter cls = l.filter cls := by
  have hpw : (l.filter cls).Pairwise (fun a b => le a b = true) := by
    apply List.pairwise_of_forall_mem_list
    intro a ha b hb
    exact hcls a b (List.mem_filter.mp ha).2 (List.mem_filter.mp hb).2
  have hsub : l.filter cls <+ l.mergeSort le :=
    List.sublist_mergeSort htrans htotal hpw (l.filter_sublist)
  have hself : (l.filter cls).filter cls = l.filter cls :=
    List.filter_eq_self.mpr (fun a ha => (List.mem_filter.mp ha).2)
  have hsub2 : l.filter cls <+ (l.mergeSort le).filter cls := by
    have := hsub.filter cls
    rwa [hself] at this
  have hlen : ((l.mergeSort le).filter cls).length = (l.filter cls).length :=
    ((List.mergeSort_perm l le).filter cls).length_eq
  exact (hsub2.eq_of_length hlen.symm).symm

/-- C8: under the default (featured-first) sort and under the `rating` sort,
products with equal sort keys keep their relative input order: each equal-key
class of the engine's output is an in-order sublist of that class in the
input. -/
theorem c8_sort_stability :
    (∀ (ps : List Product) (o : ClientFilterOptions) (k : ℕ),
      isDefaultSort o.sort = true →
      (applyClientFilters ps o).filter (fun p => featKey p == k) <+
        ps.filter (fun p => featKey p == k)) ∧
    (∀ (ps : List Product) (o : ClientFilterOptions) (k : ℚ),
      o.sort = some "rating" →
      (applyClientFilters ps o).filter (fun p => ratingKey p == k) <+
        ps.filter (fun p => ratingKey p == k)) := by
  constructor
  · intro ps o k h
    have hkey : sortLE o.sort = leDefault := sortLE_default o.sort h
    have hstable : (sortStage o (filterStages o ps)).filter (fun p => featKey p == k) =
        (filterStages o ps).filter (fun p => featKey p == k) := by
      unfold sortStage
      rw [hkey]
      refine stable_filter_class leDefault leDefault_trans leDefault_total _ ?_ _
      intro a b ha hb
      simp only [beq_iff_eq] at ha hb
      simp [leDefault, ha, hb]
    calc (applyClientFilters ps o).filter (fun p => featKey p == k)
        <+ (sortStage o (filterStages o ps)).filter (fun p => featKey p == k) :=
          (paginateStage_sublist o _).filter _
      _ <+ ps.filter (fun p => featKey p == k) := by
          rw [hstable]
          exact (filterStages_sublist o ps).filter _
  · intro ps o k h
    have hkey : sortLE o.sort = leRating := by rw [h]; rfl
    have hstable : (sortStage o (filterStages o ps)).filter (fun p => ratingKey p == k) =
        (filterStages o ps).filter (fun p => ratingKey p == k) := by
      unfold sortStage
      rw [hkey]
      refine stable_filter_class leRating leRating_trans leRating_total _ ?_ _
      intro a b ha hb
      simp only [beq_iff_eq] at ha hb
      simp [leRating, ha, hb]
    calc (applyClientFilters ps o).filter (fun p => ratingKey p == k)
        <+ (sortStage o (filterStages o ps)).filter (fun p => ratingKey p == k) :=
          (paginateStage_sublist o _).filter _
      _ <+ ps.filter (fun p => ratingKey p == k) := by
          rw [hstable]
          exact (filterStages_sublist o ps).filter _

/-- Witness for C8 on a concrete default-sorted list. -/
theorem c8_witness :
    (applyClientFilters [redMugS, blueMugS] {}).filter
        (fun p => featKey p == 0) <+
      [redMugS, blueMugS].filter (fun p => featKey p == 0) :=
  c8_sort_stability.1 [redMugS, blueMugS] {} 0 rfl

/-! ## Filter stages as `List.filter` and idempotence (C6) -/

theorem searchStage_filter (o : ClientFilterOptions) (l : List Product) :
    searchStage o l = l.filter (searchPred o) := by
  unfold searchStage searchPred
  dsimp only
  split
  · rename_i h
    refine List.filter_congr fun p _ => ?_
    rw [h, Bool.not_true, Bool.false_or]
  · rename_i h
    rw [Bool.not_eq_true] at h
    refine (List.filter_eq_self.mpr fun a _ => ?_).symm
    rw [h, Bool.not_false, Bool.true_or]

theorem tagsStage_filter (o : ClientFilterOptions) (l : List Product) :
    tagsStage o l = l.filter (tagsPred o) := by
  unfold tagsStage tagsPred
  cases h : o.tags with
  | none =>
    dsimp only
    exact (List.filter_eq_self.mpr fun a _ => rfl).symm
  | some ts =>
    dsimp only
    split
    · rename_i hlen
      refine List.filter_congr fun p _ => ?_
      rw [decide_eq_true hlen, Bool.not_true, Bool.false_or]
    · rename_i hlen
      refine (List.filter_eq_self.mpr fun a _ => ?_).symm
      rw [decide_eq_false hlen, Bool.not_false, Bool.true_or]

theorem categoryStage_filter (o : ClientFilterOptions) (l : List Product) :
    categoryStage o l = l.filter (categoryPred o) := by
  unfold categoryStage categoryPred
  cases h : o.category with
  | none =>
    dsimp only
    exact (List.filter_eq_self.mpr fun a _ => rfl).symm
  | some c =>
    dsimp only
    split
    · rename_i hc
      refine List.filter_congr fun p _ => ?_
      rw [hc, Bool.not_true, Bool.false_or]
    · rename_i hc
      rw [Bool.not_eq_true] at hc
      refine (List.filter_eq_self.mpr fun a _ => ?_).symm
      rw [hc, Bool.not_false, Bool.true_or]

theorem minPriceStage_filter (o : ClientFilterOptions) (l : List Product) :
    minPriceStage o l = l.filter (minPricePred o) := by
  unfold minPriceStage minPricePred
  cases h : o.minPrice with
  | none => exact (List.filter_eq_self.mpr (fun a _ => rfl)).symm
  | some m => rfl

theorem maxPriceStage_filter (o : ClientFilterOptions) (l : List Product) :
    maxPriceStage o l = l.filter (maxPricePred o) := by
  unfold maxPriceStage maxPricePred
  cases h : o.maxPrice with
  | none => exact (List.filter_eq_self.mpr (fun a _ => rfl)).symm
  | some m => rfl

theorem featuredStage_filter (o : ClientFilterOptions) (l : List Product) :
    featuredStage o l = l.filter (featuredPred o) := by
  unfold featuredStage featuredPred
  cases h : o.featured with
  | none => exact (List.filter_eq_self.mpr (fun a _ => rfl)).symm
  | some f => rfl

/-- C6: with page and limit absent, applying the filter engine twice with the
same spec gives the same result as applying it once. -/
theorem c6_filter_idempotent (ps : List Product) (o : ClientFilterOptions)
    (_hp : o.page = none) (hl : o.limit = none) :
    applyClientFilters (applyClientFilters ps o) o = applyClientFilters ps o := by
  have hpag : ∀ l : List Product, paginateStage o l = l := by
    intro l
    unfold paginateStage
    rw [hl]
  obtain ⟨pred, hpred⟩ : ∃ pred, ∀ l : List Product,
      filterStages o l = l.filter pred := by
    refine ⟨fun a => featuredPred o a && maxPricePred o a && minPricePred o a &&
      categoryPred o a && tagsPred o a && searchPred o a, fun l => ?_⟩
    unfold filterStages
    rw [searchStage_filter, tagsStage_filter, categoryStage_filter,
      minPriceStage_filter, maxPriceStage_filter, featuredStage_filter,
      List.filter_filter, List.filter_filter, List.filter_filter,
      List.filter_filter, List.filter_filter]
  have happ : ∀ qs : List Product,
      applyClientFilters qs o = sortStage o (filterStages o qs) := by
    intro qs
    exact hpag (sortStage o (filterStages o qs))
  simp only [happ]
  have hmem : ∀ x ∈ sortStage o (filterStages o ps), pred x = true := by
    intro x hx
    unfold sortStage at hx
    have hx2 : x ∈ filterStages o ps := List.mem_mergeSort.mp hx
    rw [hpred] at hx2
    exact (List.mem_filter.mp hx2).2
  rw [hpred (sortStage o (filterStages o ps)), List.filter_eq_self.mpr hmem]
  unfold sortStage
  exact List.mergeSort_of_sorted
    (List.sorted_mergeSort (sortLE_trans o.sort) (sortLE_total o.sort) _)

/-- Witness for C6 on a concrete list and spec. -/
theorem c6_witness :
    applyClientFilters
        (applyClientFilters [redMugS, blueMugS] { sort := some "rating" })
        { sort := some "rating" } =
      applyClientFilters [redMugS, blueMugS] { sort := some "rating" } :=
  c6_filter_idempotent [redMugS, blueMugS] { sort := some "rating" } rfl rfl

/-! ## Pagination (C5) -/

theorem ratFloor_natCast (n : ℕ) : Rat.floor ((n : ℕ) : ℚ) = (n : ℤ) := by
  rw [Rat.floor_def']
  simp

/-- Slicing with natural bounds clamped to the length equals plain
drop-then-take. -/
theorem drop_take_clamp {α : Type} (l : List α) (st k : ℕ) :
    (l.drop (min st l.length)).take (min (st + k) l.length - min st l.length) =
      (l.drop st).take k := by
  rcases le_or_lt st l.length with h | h
  · rw [min_eq_left h]
    rcases le_or_lt (st + k) l.length with h2 | h2
    · rw [min_eq_left h2]
      congr 1
      omega
    · rw [min_eq_right (le_of_lt h2)]
      have hlen : (l.drop st).length = l.length - st := List.length_drop _ _
      rw [List.take_of_length_le (by omega), List.take_of_length_le (by omega)]
  · rw [min_eq_right (le_of_lt h), min_eq_right (by omega)]
    have h1 : l.drop l.length = [] := List.drop_length l
    have h2 : l.drop st = [] := List.drop_eq_nil_of_le (le_of_lt h)
    simp [h1, h2]

/-- `Array.prototype.slice` at natural-number bounds is drop-then-take. -/
theorem jsSlice_natCast {α : Type} (l : List α) (st k : ℕ) :
    jsSlice l ((st : ℕ) : ℚ) (((st + k : ℕ)) : ℚ) = (l.drop st).take k := by
  simp only [jsSlice, jsTrunc]
  rw [if_pos (Nat.cast_nonneg st), if_pos (Nat.cast_nonneg (st + k))]
  rw [ratFloor_natCast, ratFloor_natCast]
  rw [if_neg (by omega), if_neg (by omega)]
  have h1 : (min ((st : ℕ) : ℤ) ((l.length : ℕ) : ℤ)).toNat = min st l.length := by
    omega
  have h2 : (min (((st + k : ℕ)) : ℤ) ((l.length : ℕ) : ℤ) -
      min ((st : ℕ) : ℤ) ((l.length : ℕ) : ℤ)).toNat =
      min (st + k) l.length - min st l.length := by
    omega
  rw [h1, h2, drop_take_clamp]

/-- C5: with a positive natural limit, the engine returns the
`[(page-1)*limit, (page-1)*limit+limit)` slice of the filtered-and-sorted
list, with `page = max(floor(page or 1), 1)`; an out-of-range page yields an
empty list — in particular limit=2, page=3 on a 4-item result is empty and
page=1 gives the first two items. -/
theorem c5_pagination :
    (∀ (ps : List Product) (o : ClientFilterOptions) (k : ℕ),
      o.limit = some ((k : ℕ) : ℚ) → 0 < k →
      applyClientFilters ps o =
        ((applyClientFilters ps { o with page := none, limit := none }).drop
          (startIdx o.page k)).take k) ∧
    applyClientFilters [pagMug 1, pagMug 2, pagMug 3, pagMug 4]
        { limit := some 2, page := some 3 } = [] ∧
    applyClientFilters [pagMug 1, pagMug 2, pagMug 3, pagMug 4]
        { limit := some 2, page := some 1 } = [pagMug 1, pagMug 2] := by
  have main : ∀ (ps : List Product) (o : ClientFilterOptions) (k : ℕ),
      o.limit = some ((k : ℕ) : ℚ) → 0 < k →
      applyClientFilters ps o =
        ((applyClientFilters ps { o with page := none, limit := none }).drop
          (startIdx o.page k)).take k := by
    intro ps o k hl hk
    have hnp : applyClientFilters ps { o with page := none, limit := none } =
        sortStage o (filterStages o ps) := rfl
    rw [hnp]
    show paginateStage o (sortStage o (filterStages o ps)) = _
    unfold paginateStage
    rw [hl]
    dsimp only
    rw [if_pos (show (0 : ℚ) < ((k : ℕ) : ℚ) by exact_mod_cast hk)]
    set P : ℤ := max
      (match o.page with
       | some p => if p = 0 then 1 else Rat.floor p
       | none => 1) 1 with hP
    have hP1 : 1 ≤ P := le_max_right _ _
    have htn : ((P - 1).toNat : ℤ) = P - 1 := Int.toNat_of_nonneg (by omega)
    have hmul : jsMul (mkRat (P - 1) 1) ((k : ℕ) : ℚ) =
        (((P - 1).toNat * k : ℕ) : ℚ) := by
      rw [jsMul_eq, Rat.mkRat_one, ← htn]
      push_cast
      rw [Int.toNat_natCast]
    have hadd : jsAdd ((((P - 1).toNat * k : ℕ)) : ℚ) ((k : ℕ) : ℚ) =
        ((((P - 1).toNat * k + k : ℕ)) : ℚ) := by
      rw [jsAdd_eq]
      push_cast
      ring
    rw [hmul, hadd, jsSlice_natCast]
    have hs : startIdx o.page k = (P - 1).toNat * k := by
      unfold startIdx
      rw [← hP]
      congr 1
      omega
    rw [hs]
  refine ⟨main, ?_, ?_⟩
  · rw [main [pagMug 1, pagMug 2, pagMug 3, pagMug 4]
      { limit := some 2, page := some 3 } 2 (by norm_num) (by norm_num)]
    have hst : startIdx (some 3) 2 = 4 := by decide
    rw [hst]
    have heval : applyClientFilters [pagMug 1, pagMug 2, pagMug 3, pagMug 4]
        { ({ limit := some 2, page := some 3 } : ClientFilterOptions) with
          page := none, limit := none } =
        [pagMug 1, pagMug 2, pagMug 3, pagMug 4] := by
      simp +decide [applyClientFilters, paginateStage, sortStage, featuredStage,
        maxPriceStage, minPriceStage, categoryStage, tagsStage, searchStage,
        List.mergeSort, List.splitInTwo, List.merge, sortLE, leDefault, featKey,
        pagMug]
    rw [heval]
    rfl
  · rw [main [pagMug 1, pagMug 2, pagMug 3, pagMug 4]
      { limit := some 2, page := some 1 } 2 (by norm_num) (by norm_num)]
    have hst : startIdx (some 1) 2 = 0 := by decide
    rw [hst]
    have heval : applyClientFilters [pagMug 1, pagMug 2, pagMug 3, pagMug 4]
        { ({ limit := some 2, page := some 1 } : ClientFilterOptions) with
          page := none, limit := none } =
        [pagMug 1, pagMug 2, pagMug 3, pagMug 4] := by
      simp +decide [applyClientFilters, paginateStage, sortStage, featuredStage,
        maxPriceStage, minPriceStage, categoryStage, tagsStage, searchStage,
        List.mergeSort, List.splitInTwo, List.merge, sortLE, leDefault, featKey,
        pagMug]
    rw [heval]
    rfl

/-! ## Split/join string lemmas for the form round-trip (C3) -/

theorem strMkData (s : String) : String.mk s.data = s := rfl

theorem dropWhile_idem {α : Type} (p : α → Bool) (l : List α) :
    (l.dropWhile p).dropWhile p = l.dropWhile p := by
  induction l with
  | nil => rfl
  | cons a t ih =>
    rw [List.dropWhile_cons]
    split
    · exact ih
    · rename_i h
      rw [List.dropWhile_cons, if_neg h]

/-- The trimmed list has no leading whitespace left. -/
theorem charTrim_dropWhile (cs : List Char) :
    (charTrim cs).dropWhile jsWsChar = charTrim cs := by
  unfold charTrim
  have hpre : ((cs.dropWhile jsWsChar).reverse.dropWhile jsWsChar).reverse <+:
      cs.dropWhile jsWsChar := by
    have h0 : (cs.dropWhile jsWsChar).reverse.dropWhile jsWsChar <:+
        (cs.dropWhile jsWsChar).reverse := List.dropWhile_suffix _
    have h1 := List.reverse_prefix.mpr h0
    rwa [List.reverse_reverse] at h1
  obtain ⟨t, ht⟩ := hpre
  cases hYr : ((cs.dropWhile jsWsChar).reverse.dropWhile jsWsChar).reverse with
  | nil => rfl
  | cons a u =>
    have hA : cs.dropWhile jsWsChar = a :: (u ++ t) := by
      rw [← ht, hYr]
      simp
    have hne : cs.dropWhile jsWsChar ≠ [] := by rw [hA]; simp
    have h2 := List.head_dropWhile_not jsWsChar cs hne
    have ha : jsWsChar a = false := by
      simpa [hA] using h2
    rw [List.dropWhile_cons, if_neg (by simp [ha])]

theorem charTrim_idem (cs : List Char) :
    charTrim (charTrim cs) = charTrim cs := by
  show (((charTrim cs).dropWhile jsWsChar).reverse.dropWhile jsWsChar).reverse =
    charTrim cs
  rw [charTrim_dropWhile]
  unfold charTrim
  rw [List.reverse_reverse, dropWhile_idem]

theorem charTrim_cons_ws (c : Char) (h : jsWsChar c = true) (cs : List Char) :
    charTrim (c :: cs) = charTrim cs := by
  unfold charTrim
  rw [List.dropWhile_cons, if_pos h]

theorem mem_charTrim (x : Char) (cs : List Char) (h : x ∈ charTrim cs) :
    x ∈ cs := by
  unfold charTrim at h
  rw [List.mem_reverse] at h
  have h2 : x ∈ (cs.dropWhile jsWsChar).reverse :=
    (List.dropWhile_sublist jsWsChar).subset h
  rw [List.mem_reverse] at h2
  exact (List.dropWhile_sublist jsWsChar).subset h2

theorem splitComma_ne_nil (cs : List Char) : splitComma cs ≠ [] := by
  induction cs with
  | nil => simp [splitComma]
  | cons c t ih =>
    simp only [splitComma]
    split
    · simp
    · split
      · simp
      · simp

theorem splitComma_no_comma (p : List Char) (hp : ',' ∉ p) :
    splitComma p = [p] := by
  induction p with
  | nil => rfl
  | cons c cp ih =>
    have hc : c ≠ ',' := fun hh => hp (hh ▸ List.mem_cons_self c cp)
    have hcp : ',' ∉ cp := fun hm => hp (List.mem_cons_of_mem c hm)
    simp only [splitComma, if_neg hc, ih hcp]

theorem splitComma_append (p r : List Char) (hp : ',' ∉ p) :
    splitComma (p ++ ',' :: r) = p :: splitComma r := by
  induction p with
  | nil => simp [splitComma]
  | cons c cp ih =>
    have hc : c ≠ ',' := fun hh => hp (hh ▸ List.mem_cons_self c cp)
    have hcp : ',' ∉ cp := fun hm => hp (List.mem_cons_of_mem c hm)
    simp only [List.cons_append, splitComma, if_neg hc]
    have ih2 : splitComma (List.append cp (',' :: r)) = cp :: splitComma r :=
      ih hcp
    rw [ih2]

theorem mem_splitComma_no_comma (cs : List Char) :
    ∀ q ∈ splitComma cs, ',' ∉ q := by
  induction cs with
  | nil =>
    intro q hq
    have hq2 : q ∈ [([] : List Char)] := hq
    rw [List.mem_singleton] at hq2
    simp [hq2]
  | cons c t ih =>
    intro q hq
    simp only [splitComma] at hq
    by_cases hc : c = ','
    · rw [if_pos hc] at hq
      rcases List.mem_cons.mp hq with h1 | h1
      · simp [h1]
      · exact ih q h1
    · rw [if_neg hc] at hq
      cases hs : splitComma t with
      | nil => exact absurd hs (splitComma_ne_nil t)
      | cons p ps =>
        rw [hs] at hq
        rcases List.mem_cons.mp hq with h1 | h1
        · subst h1
          intro hmem
          rcases List.mem_cons.mp hmem with hx | hx
          · exact hc hx.symm
          · refine ih p ?_ hx
            rw [hs]
            exact List.mem_cons_self p ps
        · refine ih q ?_
          rw [hs]
          exact List.mem_cons_of_mem p h1

/-- Every entry produced by `toList` is non-empty, already trimmed, and
comma-free. -/
theorem toList_elem_props (s : String) :
    ∀ x ∈ toList s, x ≠ "" ∧ charTrim x.data = x.data ∧ ',' ∉ x.data := by
  intro x hx
  unfold toList at hx
  rw [List.mem_filter] at hx
  obtain ⟨hx1, hx2⟩ := hx
  rw [List.mem_map] at hx1
  obtain ⟨p, hp, hpx⟩ := hx1
  refine ⟨by simpa [strTruthy] using hx2, ?_, ?_⟩
  · rw [← hpx]
    show charTrim (charTrim p) = charTrim p
    exact charTrim_idem p
  · rw [← hpx]
    show ',' ∉ charTrim p
    intro hmem
    exact (mem_splitComma_no_comma s.data p hp) (mem_charTrim ',' p hmem)

/-- Splitting the comma-space join of trimmed, non-empty, comma-free entries
recovers the entries exactly. -/
theorem toList_joinCommaSpace (L : List String)
    (h : ∀ x ∈ L, x ≠ "" ∧ charTrim x.data = x.data ∧ ',' ∉ x.data) :
    toList (joinCommaSpace L) = L := by
  induction L with
  | nil => rfl
  | cons x xs ih =>
    cases xs with
    | nil =>
      obtain ⟨hne, htrim, hcomma⟩ := h x (List.mem_cons_self x [])
      show toList x = [x]
      unfold toList
      rw [splitComma_no_comma x.data hcomma]
      simp only [List.map_cons, List.map_nil]
      rw [htrim, strMkData]
      rw [List.filter_cons_of_pos (by simpa [strTruthy] using hne)]
      rfl
    | cons y ys =>
      obtain ⟨hne, htrim, hcomma⟩ := h x (List.mem_cons_self x (y :: ys))
      have hjoin : (joinCommaSpace (x :: y :: ys)).data =
          x.data ++ ',' :: ' ' :: (joinCommaSpace (y :: ys)).data := by
        show (x ++ ", " ++ joinCommaSpace (y :: ys)).data = _
        rw [String.data_append, String.data_append]
        simp
      unfold toList
      rw [hjoin, splitComma_append x.data _ hcomma]
      obtain ⟨p, ps, hsp⟩ : ∃ p ps,
          splitComma (joinCommaSpace (y :: ys)).data = p :: ps := by
        cases hq : splitComma (joinCommaSpace (y :: ys)).data with
        | nil => exact absurd hq (splitComma_ne_nil _)
        | cons p ps => exact ⟨p, ps, rfl⟩
      have hspace : splitComma (' ' :: (joinCommaSpace (y :: ys)).data) =
          (' ' :: p) :: ps := by
        rw [splitComma, if_neg (by decide), hsp]
      rw [hspace]
      simp only [List.map_cons]
      rw [htrim, strMkData, charTrim_cons_ws ' ' (by decide) p]
      rw [List.filter_cons_of_pos (by simpa [strTruthy] using hne)]
      have ih2 := ih (fun z hz => h z (List.mem_cons_of_mem x hz))
      unfold toList at ih2
      rw [hsp] at ih2
      simp only [List.map_cons] at ih2
      rw [ih2]

/-- C3 counterexample: on a product with price amount 10 (and buildPayload
succeeding), the round trip maps the price form field to `""`, because the
payload carries `price` as a bare number while `productToFormState` reads the
nested `price.amount`. -/
theorem c3_price_not_preserved_cex :
    (buildPayload (productToFormState rtProduct)).error = none ∧
    (productToFormState rtProduct).price = "10" ∧
    (payloadToFormState (buildPayload (productToFormState rtProduct)).payload).price
      = "" := by
  decide

/-- C3 (amended): for every product on which `buildPayload` succeeds, the
round trip `payloadToFormState ∘ buildPayload ∘ productToFormState` maps the
price field to `""` (the nested `price.amount` is not recoverable from the
flat payload), preserves `name` up to trimming, preserves the parsed tag and
badge lists exactly (the joined strings up to the join-then-split
normalization), and preserves `featured`. -/
theorem c3_roundTrip_amended (p : Product)
    (h : (buildPayload (productToFormState p)).error = none) :
    (payloadToFormState (buildPayload (productToFormState p)).payload).price = "" ∧
    (payloadToFormState (buildPayload (productToFormState p)).payload).name =
      jsTrim (productToFormState p).name ∧
    toList (payloadToFormState (buildPayload (productToFormState p)).payload).tags =
      toList (productToFormState p).tags ∧
    toList (payloadToFormState (buildPayload (productToFormState p)).payload).badges =
      toList (productToFormState p).badges ∧
    (payloadToFormState (buildPayload (productToFormState p)).payload).featured =
      (productToFormState p).featured := by
  rcases buildPayload_error_or_fields (productToFormState p) with hb | hb
  · rw [h] at hb
    exact absurd hb (by simp)
  obtain ⟨hname, htags, hbadges, -, hfeat⟩ := hb
  refine ⟨rfl, hname, ?_, ?_, ?_⟩
  · show toList (joinCommaSpace
      (((buildPayload (productToFormState p)).payload.tags).getD [])) = _
    rw [htags]
    by_cases hlen : 0 < (toList (productToFormState p).tags).length
    · rw [if_pos hlen]
      exact toList_joinCommaSpace _ (toList_elem_props (productToFormState p).tags)
    · rw [if_neg hlen]
      have hnil : toList (productToFormState p).tags = [] :=
        List.length_eq_zero.mp (by omega)
      rw [hnil]
      rfl
  · show toList (joinCommaSpace
      (((buildPayload (productToFormState p)).payload.badges).getD [])) = _
    rw [hbadges]
    by_cases hlen : 0 < (toList (productToFormState p).badges).length
    · rw [if_pos hlen]
      exact toList_joinCommaSpace _ (toList_elem_props (productToFormState p).badges)
    · rw [if_neg hlen]
      have hnil : toList (productToFormState p).badges = [] :=
        List.length_eq_zero.mp (by omega)
      rw [hnil]
      rfl
  · show ((buildPayload (productToFormState p)).payload.featured).getD false = _
    rw [hfeat]
    rfl

/-- Witness for C3 (amended) on the concrete round-trip product. -/
theorem c3_witness :
    toList (payloadToFormState
        (buildPayload (productToFormState rtProduct)).payload).tags =
      toList (productToFormState rtProduct).tags :=
  (c3_roundTrip_amended rtProduct (by decide)).2.2.1

/-- Witness for C5 at limit 2, page 3 on four items. -/
theorem c5_witness :
    applyClientFilters [pagMug 1, pagMug 2, pagMug 3, pagMug 4]
        { limit := some 2, page := some 3 } =
      ((applyClientFilters [pagMug 1, pagMug 2, pagMug 3, pagMug 4]
          { ({ limit := some 2, page := some 3 } : ClientFilterOptions) with
            page := none, limit := none }).drop (startIdx (some 3) 2)).take 2 :=
  c5_pagination.1 [pagMug 1, pagMug 2, pagMug 3, pagMug 4]
    { limit := some 2, page := some 3 } 2 (by norm_num) (by norm_num)

end Shop
